import Mathlib

/-!
# go-open-browser: a shallow embedding of `browser.go`

The package has two exported functions, `Open` and `OpenURL`, and three
handlers (`handleDarwin`, `handleWindows`, `handleNix`).  Everything the code
does to the outside world goes through `exec.Command(...).Run()`; the embedding
threads the list of commands that were run (in order) as explicit state, and
takes the outcome of each run from an oracle.

What the package imports from the Go standard library is a parameter of the
model (`Sys`): the value of `runtime.GOOS`, the outcome of running a command,
`(*url.URL).String` and `url.Parse`.
-/

namespace Browser

/-- Modelled from the spec: the user part of a URL value (`url.Userinfo` of the
Go standard library, which is not under `src/`). -/
structure Userinfo where
  username : String
  password : String
  passwordSet : Bool
deriving DecidableEq, Repr

/-- Modelled from the spec: the URL value of spec section 3 (scheme, host, path,
query, fragment).  Its declaration is `url.URL` of the Go standard library, which
is not under `src/`; the fields are the ones of that struct. -/
structure URL where
  Scheme : String
  Opaque : String
  User : Option Userinfo
  Host : String
  Path : String
  RawPath : String
  OmitHost : Bool
  ForceQuery : Bool
  RawQuery : String
  Fragment : String
  RawFragment : String
deriving DecidableEq, Repr

/-- Modelled from the spec: the standard "has a scheme" test, `(*url.URL).IsAbs`
of the Go standard library (not under `src/`): the scheme is non-empty. -/
def URL.IsAbs (u : URL) : Bool := u.Scheme != ""

/-- A command line as built by `exec.Command(name, args...)`. -/
structure Cmd where
  name : String
  args : List String
deriving DecidableEq, Repr

/-- The values of Go's `error` interface that the package can return.  They are
kept apart by their dynamic type, as in Go: `errorString` is what `errors.New`
builds, `exec` is what `(*exec.Cmd).Run` returns, `parse` is what `url.Parse`
returns. -/
inductive Error where
  | errorString (s : String)
  | exec (msg : String)
  | parse (msg : String)
deriving DecidableEq, Repr

/-- The standard-library surface the package calls.
* `GOOS` is `runtime.GOOS`;
* `run c` is the outcome of `exec.Command(c.name, c.args...).Run()`:
  `none` for a nil error, `some msg` for the error of the process layer;
* `urlString` is `(*url.URL).String`;
* `parse` is `url.Parse`.
The outcome of a run is a function of the command alone.  Within one call of
`OpenURL` no command is run twice (`OpenURL_trace_nodup`), so nothing is lost to
an oracle that would also depend on the moment of the run; two calls may be
given two environments. -/
structure Sys where
  GOOS : String
  run : Cmd → Option String
  urlString : URL → String
  parse : String → Except String URL

/-- Computations that run commands: the state is the list of the commands run
so far, oldest first. -/
abbrev Proc := StateM (List Cmd)

/-- The call `exec.Command(c.name, c.args...).Run()`: the command is recorded,
the oracle gives the returned `error` (`none` is nil). -/
def Run (sys : Sys) (c : Cmd) : Proc (Option Error) := do
  modify (fun t => t ++ [c])
  return (sys.run c).map Error.exec

/-- The function `handleDarwin`. -/
def handleDarwin (sys : Sys) (url : URL) : Proc (Option Error) :=
  -- use open
  Run sys ⟨"open", [sys.urlString url]⟩

/-- The function `handleWindows`. -/
def handleWindows (sys : Sys) (url : URL) : Proc (Option Error) :=
  -- use start
  Run sys ⟨"start", [sys.urlString url]⟩

/-- The slice literal `strategies` of `handleNix`. -/
def strategies : List String := ["xdg-open", "sensible-browser", "x-www-browser"]

/-- The function `handleNix`. -/
def handleNix (sys : Sys) (url : URL) : Proc (Option Error) := do
  let mut strategy := ""
  for potential in strategies do
    let err ← Run sys ⟨"which", [potential]⟩
    if err ≠ none then
      continue
    else
      strategy := potential
      break
  if strategy == "" then
    return some (Error.errorString "no strategy available.")
  Run sys ⟨strategy, [sys.urlString url]⟩

/-- The function `OpenURL`.  The argument is a pointer in Go and the scheme is
assigned through it, so the URL value the caller holds after the call is
returned next to the error. -/
def OpenURL (sys : Sys) (urlObj : URL) : Proc (Option Error × URL) := do
  let mut urlObj := urlObj
  -- append scheme if it does not exist.
  if !urlObj.IsAbs then
    urlObj := { urlObj with Scheme := "https" }
  match sys.GOOS with
  | "darwin" => return (← handleDarwin sys urlObj, urlObj)
  | "windows" => return (← handleWindows sys urlObj, urlObj)
  | "linux" | "freebsd" => return (← handleNix sys urlObj, urlObj)
  | _ =>
    return (some (Error.errorString ("OS type " ++ sys.GOOS ++ " not implemented.")), urlObj)

/-- The function `Open`. -/
def Open (sys : Sys) (rawURLStr : String) : Proc (Option Error) := do
  match sys.parse rawURLStr with
  | .error err => return some (Error.parse err)
  | .ok urlObj => return (← OpenURL sys urlObj).1

/-- The probe of a candidate: the command of `exec.Command("which", potential)`. -/
def probe (potential : String) : Cmd := ⟨"which", [potential]⟩

/-- The launch of a program on a URL: the command of
`exec.Command(strategy, url.String())`. -/
def launch (sys : Sys) (program : String) (url : URL) : Cmd := ⟨program, [sys.urlString url]⟩

/-- The existence probe of a candidate succeeds: its run returns a nil error. -/
def found (sys : Sys) (potential : String) : Bool := (sys.run (probe potential)).isNone

/-- The URL value after the scheme defaulting at the head of `OpenURL`. -/
def normalized (u : URL) : URL := if !u.IsAbs then { u with Scheme := "https" } else u

/-- The error and final value a computation gives when started on an empty log. -/
def result {α : Type} (m : Proc α) : α := (m.run []).1

/-- The commands a computation runs, in order, when started on an empty log. -/
def trace {α : Type} (m : Proc α) : List Cmd := (m.run []).2

/-- The operating systems `OpenURL` has a case for. -/
def supported : List String := ["darwin", "windows", "linux", "freebsd"]

/-! ### Sample environments for concrete instances -/

/-- A sample string form of a URL value: the scheme, "://", the host, the path. -/
def sampleString (u : URL) : String := u.Scheme ++ "://" ++ u.Host ++ u.Path

/-- A sample parser: it rejects "http://[::1" and takes any other input as a path
with no scheme and no host. -/
def sampleParse (s : String) : Except String URL :=
  if s = "http://[::1" then .error "missing bracket in host"
  else .ok ⟨"", "", none, "", s, "", false, false, "", "", ""⟩

/-- A sample environment on the given operating system and process oracle. -/
def sampleSys (os : String) (run : Cmd → Option String) : Sys :=
  ⟨os, run, sampleString, sampleParse⟩

/-- The URL value `url.Parse` gives for "example.com/path": no scheme, no host,
the whole input as the path. -/
def examplePath : URL := ⟨"", "", none, "", "example.com/path", "", false, false, "", "", ""⟩

/-- The URL value `url.Parse` gives for "http://example.com". -/
def exampleHttp : URL := ⟨"http", "", none, "example.com", "", "", false, false, "", "", ""⟩

/-- The process oracle of the example of C4: xdg-open and x-www-browser are
installed, sensible-browser is not; every launch succeeds. -/
def runNoSensible (c : Cmd) : Option String :=
  if c = ⟨"which", ["sensible-browser"]⟩ then some "exit status 1" else none

/-- The process oracle of the example of C8: the three candidates are installed,
running xdg-open fails, running any other candidate would succeed. -/
def runXdgFails (c : Cmd) : Option String :=
  if c.name = "xdg-open" then some "exit status 3" else none

/-- A process oracle in which x-www-browser alone is installed: the probes of the
other candidates fail, every launch succeeds. -/
def runOnlyLast (c : Cmd) : Option String :=
  if c.name = "which" ∧ c.args ≠ ["x-www-browser"] then some "exit status 1" else none

/-! ### The loop of `handleNix` and the switch of `OpenURL`, evaluated -/

theorem handleNix_run (sys : Sys) (u : URL) (t : List Cmd) :
    (handleNix sys u).run t =
      match strategies.find? (found sys) with
      | none => (some (Error.errorString "no strategy available."), t ++ strategies.map probe)
      | some p => ((sys.run (launch sys p u)).map Error.exec,
          t ++ ((strategies.takeWhile (fun q => !found sys q)).map probe
            ++ [probe p, launch sys p u])) := by
  rcases h1 : sys.run ⟨"which", ["xdg-open"]⟩ with _ | e1 <;>
  rcases h2 : sys.run ⟨"which", ["sensible-browser"]⟩ with _ | e2 <;>
  rcases h3 : sys.run ⟨"which", ["x-www-browser"]⟩ with _ | e3 <;>
  simp [handleNix, strategies, Run, h1, h2, h3, StateT.run, bind, StateT.bind, modify, modifyGet,
    MonadStateOf.modifyGet, StateT.modifyGet, pure, StateT.pure, forIn, List.forIn', List.forIn'.loop,
    forIn', found, probe, launch, List.find?, List.takeWhile]

theorem OpenURL_run (sys : Sys) (u : URL) (t : List Cmd) :
    (OpenURL sys u).run t =
      if sys.GOOS = "darwin" then
        (((sys.run (launch sys "open" (normalized u))).map Error.exec, normalized u),
          t ++ [launch sys "open" (normalized u)])
      else if sys.GOOS = "windows" then
        (((sys.run (launch sys "start" (normalized u))).map Error.exec, normalized u),
          t ++ [launch sys "start" (normalized u)])
      else if sys.GOOS = "linux" ∨ sys.GOOS = "freebsd" then
        ((((handleNix sys (normalized u)).run t).1, normalized u),
          ((handleNix sys (normalized u)).run t).2)
      else
        ((some (Error.errorString ("OS type " ++ sys.GOOS ++ " not implemented.")), normalized u), t) := by
  by_cases hs : u.Scheme = "" <;>
  by_cases h1 : sys.GOOS = "darwin" <;>
  by_cases h2 : sys.GOOS = "windows" <;>
  by_cases h3 : sys.GOOS = "linux" <;>
  by_cases h4 : sys.GOOS = "freebsd" <;>
  simp_all [OpenURL, normalized, URL.IsAbs, handleDarwin, handleWindows, Run, launch, StateT.run,
    bind, StateT.bind, modify, modifyGet, MonadStateOf.modifyGet, StateT.modifyGet, pure,
    StateT.pure]
  all_goals rfl

/-! ### Lists: the first element that passes a test -/

theorem find_first {α : Type} (f : α → Bool) (p : α) (post : List α) :
    ∀ pre : List α, (∀ q ∈ pre, f q = false) → f p = true →
      (pre ++ p :: post).find? f = some p ∧
        (pre ++ p :: post).takeWhile (fun q => !f q) = pre
  | [], _, hp => by simp [List.find?, List.takeWhile, hp]
  | a :: pre, hpre, hp => by
      have ha : f a = false := hpre a (List.mem_cons_self a pre)
      have ih := find_first f p post pre (fun q hq => hpre q (List.mem_cons_of_mem a hq)) hp
      simp [List.find?, List.takeWhile, ha, ih.1, ih.2]

theorem find_split {α : Type} (f : α → Bool) (p : α) :
    ∀ l : List α, l.find? f = some p →
      f p = true ∧ (∀ q ∈ l.takeWhile (fun q => !f q), f q = false) ∧
        ∃ post, l = l.takeWhile (fun q => !f q) ++ p :: post
  | [], h => by simp at h
  | a :: l, h => by
      cases ha : f a with
      | true =>
          have hap : a = p := by simpa [List.find?, ha] using h
          subst hap
          exact ⟨ha, by simp [List.takeWhile, ha], l, by simp [List.takeWhile, ha]⟩
      | false =>
          have hl : l.find? f = some p := by simpa [List.find?, ha] using h
          obtain ⟨h1, h2, post, h3⟩ := find_split f p l hl
          refine ⟨h1, ?_, post, ?_⟩
          · intro q hq
            simp only [List.takeWhile, ha, Bool.not_false, List.mem_cons] at hq
            rcases hq with rfl | hq
            · exact ha
            · exact h2 q hq
          · simp only [List.takeWhile, ha, Bool.not_false, List.cons_append]
            rw [← h3]

theorem find_none_iff {α : Type} (f : α → Bool) (l : List α) :
    l.find? f = none ↔ ∀ q ∈ l, f q = false := by
  induction l with
  | nil => simp
  | cons a l ih =>
      cases ha : f a <;> simp [List.find?, ha, ih]

/-! ### What each function returns and runs -/

theorem handleNix_none (sys : Sys) (u : URL) (h : strategies.find? (found sys) = none) :
    result (handleNix sys u) = some (Error.errorString "no strategy available.") ∧
      trace (handleNix sys u) = strategies.map probe := by
  have hr := handleNix_run sys u []
  rw [h] at hr
  simp only [List.nil_append] at hr
  simp [result, trace, hr]

theorem handleNix_some (sys : Sys) (u : URL) (p : String)
    (h : strategies.find? (found sys) = some p) :
    result (handleNix sys u) = (sys.run (launch sys p u)).map Error.exec ∧
      trace (handleNix sys u) =
        (strategies.takeWhile (fun q => !found sys q)).map probe ++ [probe p, launch sys p u] := by
  have hr := handleNix_run sys u []
  rw [h] at hr
  simp only [List.nil_append] at hr
  simp [result, trace, hr]

theorem OpenURL_url (sys : Sys) (u : URL) : (result (OpenURL sys u)).2 = normalized u := by
  have hr := OpenURL_run sys u []
  unfold result
  rw [hr]
  split_ifs <;> rfl

theorem OpenURL_nix (sys : Sys) (u : URL) (h : sys.GOOS = "linux" ∨ sys.GOOS = "freebsd") :
    (result (OpenURL sys u)).1 = result (handleNix sys (normalized u)) ∧
      trace (OpenURL sys u) = trace (handleNix sys (normalized u)) := by
  have hr := OpenURL_run sys u []
  have h1 : sys.GOOS ≠ "darwin" := by rcases h with h | h <;> simp [h]
  have h2 : sys.GOOS ≠ "windows" := by rcases h with h | h <;> simp [h]
  rw [if_neg h1, if_neg h2, if_pos h] at hr
  simp [result, trace, hr]

theorem OpenURL_launch_args (sys : Sys) (u : URL) :
    ∀ c ∈ trace (OpenURL sys u), c.name ≠ "which" → c.args = [sys.urlString (normalized u)] := by
  intro c hc hname
  have hr := OpenURL_run sys u []
  by_cases h1 : sys.GOOS = "darwin"
  · rw [if_pos h1] at hr
    simp only [trace, hr, List.nil_append, List.mem_singleton] at hc
    simp [hc, launch]
  by_cases h2 : sys.GOOS = "windows"
  · rw [if_neg h1, if_pos h2] at hr
    simp only [trace, hr, List.nil_append, List.mem_singleton] at hc
    simp [hc, launch]
  by_cases h3 : sys.GOOS = "linux" ∨ sys.GOOS = "freebsd"
  · rw [(OpenURL_nix sys u h3).2] at hc
    rcases hf : strategies.find? (found sys) with _ | p
    · rw [(handleNix_none sys (normalized u) hf).2] at hc
      obtain ⟨q, _, rfl⟩ := List.mem_map.1 hc
      exact absurd rfl hname
    · rw [(handleNix_some sys (normalized u) p hf).2] at hc
      rcases List.mem_append.1 hc with hc | hc
      · obtain ⟨q, _, rfl⟩ := List.mem_map.1 hc
        exact absurd rfl hname
      · simp only [List.mem_cons, List.mem_singleton, List.not_mem_nil, or_false] at hc
        rcases hc with rfl | rfl
        · exact absurd rfl hname
        · rfl
  · rw [if_neg h1, if_neg h2, if_neg h3] at hr
    simp [trace, hr] at hc

theorem strategies_split (pre post : List String) (p : String)
    (hs : strategies = pre ++ p :: post) :
    (pre = [] ∧ p = "xdg-open" ∧ post = ["sensible-browser", "x-www-browser"]) ∨
      (pre = ["xdg-open"] ∧ p = "sensible-browser" ∧ post = ["x-www-browser"]) ∨
      (pre = ["xdg-open", "sensible-browser"] ∧ p = "x-www-browser" ∧ post = []) := by
  rcases pre with _ | ⟨a, _ | ⟨b, _ | ⟨c, pre⟩⟩⟩ <;> simp [strategies] at hs
  · obtain ⟨rfl, rfl⟩ := hs
    simp
  · obtain ⟨rfl, rfl, rfl⟩ := hs
    simp
  · obtain ⟨rfl, rfl, rfl, rfl⟩ := hs
    simp

theorem later_untouched (sys : Sys) (u : URL) (pre post : List String) (p : String)
    (hs : strategies = pre ++ p :: post) :
    ∀ q ∈ post, ∀ c ∈ pre.map probe ++ [probe p, launch sys p u], c ≠ probe q ∧ c.name ≠ q := by
  intro q hq c hc
  rcases strategies_split pre post p hs with ⟨rfl, rfl, rfl⟩ | ⟨rfl, rfl, rfl⟩ | ⟨rfl, rfl, rfl⟩
  · simp only [List.mem_cons, List.mem_singleton, List.not_mem_nil, or_false] at hq
    simp only [List.map_nil, List.nil_append, List.mem_cons, List.mem_singleton,
      List.not_mem_nil, or_false] at hc
    rcases hq with rfl | rfl <;> rcases hc with rfl | rfl <;> simp [probe, launch]
  · simp only [List.mem_cons, List.mem_singleton, List.not_mem_nil, or_false] at hq
    simp only [List.map_cons, List.map_nil, List.cons_append, List.nil_append, List.mem_cons,
      List.mem_singleton, List.not_mem_nil, or_false] at hc
    subst hq
    rcases hc with rfl | rfl | rfl <;> simp [probe, launch]
  · simp at hq

theorem notImplemented_ne (os : String) :
    "no strategy available." ≠ "OS type " ++ os ++ " not implemented." := by
  intro h
  have hd := congrArg String.data h
  simp [String.data_append] at hd

/-- No call of `OpenURL` runs the same command twice: within a call, an oracle
that is a function of the command says as much as one that depends on the
moment of the run. -/
theorem OpenURL_trace_nodup (sys : Sys) (u : URL) : (trace (OpenURL sys u)).Nodup := by
  have hr := OpenURL_run sys u []
  by_cases h1 : sys.GOOS = "darwin"
  · rw [if_pos h1] at hr
    simp [trace, hr]
  by_cases h2 : sys.GOOS = "windows"
  · rw [if_neg h1, if_pos h2] at hr
    simp [trace, hr]
  by_cases h3 : sys.GOOS = "linux" ∨ sys.GOOS = "freebsd"
  · rw [(OpenURL_nix sys u h3).2]
    rcases hf : strategies.find? (found sys) with _ | p
    · rw [(handleNix_none sys (normalized u) hf).2]
      decide
    · obtain ⟨_, _, post, hsplit⟩ := find_split (found sys) p strategies hf
      rw [(handleNix_some sys (normalized u) p hf).2]
      generalize strategies.takeWhile (fun q => !found sys q) = pre at hsplit
      rcases strategies_split pre post p hsplit with ⟨rfl, rfl, rfl⟩ | ⟨rfl, rfl, rfl⟩ |
        ⟨rfl, rfl, rfl⟩ <;> simp [probe, launch]
  · rw [if_neg h1, if_neg h2, if_neg h3] at hr
    simp [trace, hr]

/-! ### The claims -/

/-- C1 (scheme defaulting): when the scheme of the URL value is empty, `OpenURL`
leaves the caller with the same value except that its scheme is "https" (host,
path, query, fragment, user, opaque and every other field are as before), and
every command it runs that is not a `which` probe, that is every launcher, gets
the string form of that https value as its only argument. -/
theorem OpenURL_scheme_defaulting (sys : Sys) (u : URL) (h : u.Scheme = "") :
    (result (OpenURL sys u)).2 = { u with Scheme := "https" } ∧
      (result (OpenURL sys u)).2.Scheme = "https" ∧
      (result (OpenURL sys u)).2.Host = u.Host ∧
      (result (OpenURL sys u)).2.Path = u.Path ∧
      (result (OpenURL sys u)).2.RawQuery = u.RawQuery ∧
      (result (OpenURL sys u)).2.Fragment = u.Fragment ∧
      (result (OpenURL sys u)).2.User = u.User ∧
      (result (OpenURL sys u)).2.Opaque = u.Opaque ∧
      ∀ c ∈ trace (OpenURL sys u), c.name ≠ "which" →
        c.args = [sys.urlString { u with Scheme := "https" }] := by
  have hn : normalized u = { u with Scheme := "https" } := by simp [normalized, URL.IsAbs, h]
  have hl := OpenURL_launch_args sys u
  rw [OpenURL_url, hn]
  rw [hn] at hl
  exact ⟨rfl, rfl, rfl, rfl, rfl, rfl, rfl, rfl, hl⟩

/-- C1 at the URL value parsed from "example.com/path" on darwin: the scheme becomes
"https", host and path stay, and `open` is run on "https://example.com/path". -/
theorem OpenURL_scheme_defaulting_witness :
    examplePath.Scheme = "" ∧
      (result (OpenURL (sampleSys "darwin" (fun _ => none)) examplePath)).2
          = { examplePath with Scheme := "https" } ∧
      (result (OpenURL (sampleSys "darwin" (fun _ => none)) examplePath)).2.Scheme = "https" ∧
      (result (OpenURL (sampleSys "darwin" (fun _ => none)) examplePath)).2.Host = "" ∧
      (result (OpenURL (sampleSys "darwin" (fun _ => none)) examplePath)).2.Path
          = "example.com/path" ∧
      (result (OpenURL (sampleSys "darwin" (fun _ => none)) examplePath)).2.RawQuery = "" ∧
      (result (OpenURL (sampleSys "darwin" (fun _ => none)) examplePath)).2.Fragment = "" ∧
      (result (OpenURL (sampleSys "darwin" (fun _ => none)) examplePath)).2.User = none ∧
      (result (OpenURL (sampleSys "darwin" (fun _ => none)) examplePath)).2.Opaque = "" ∧
      ∀ c ∈ trace (OpenURL (sampleSys "darwin" (fun _ => none)) examplePath),
        c.name ≠ "which" → c.args = ["https://example.com/path"] :=
  ⟨rfl, OpenURL_scheme_defaulting (sampleSys "darwin" (fun _ => none)) examplePath rfl⟩

/-- C2 (scheme preservation): when the scheme of the URL value is not empty,
`OpenURL` leaves the caller with exactly the value it was given, scheme included,
and every launcher it runs gets the string form of that unmodified value as its
only argument. -/
theorem OpenURL_scheme_preservation (sys : Sys) (u : URL) (h : u.Scheme ≠ "") :
    (result (OpenURL sys u)).2 = u ∧
      (result (OpenURL sys u)).2.Scheme = u.Scheme ∧
      ∀ c ∈ trace (OpenURL sys u), c.name ≠ "which" → c.args = [sys.urlString u] := by
  have hn : normalized u = u := by simp [normalized, URL.IsAbs, h]
  have hl := OpenURL_launch_args sys u
  rw [OpenURL_url, hn]
  rw [hn] at hl
  exact ⟨rfl, rfl, hl⟩

/-- C2 at the URL value parsed from "http://example.com" on windows: the scheme is
still "http" and the launcher gets "http://example.com". -/
theorem OpenURL_scheme_preservation_witness :
    exampleHttp.Scheme ≠ "" ∧
      (result (OpenURL (sampleSys "windows" (fun _ => none)) exampleHttp)).2 = exampleHttp ∧
      (result (OpenURL (sampleSys "windows" (fun _ => none)) exampleHttp)).2.Scheme = "http" ∧
      ∀ c ∈ trace (OpenURL (sampleSys "windows" (fun _ => none)) exampleHttp),
        c.name ≠ "which" → c.args = ["http://example.com"] :=
  ⟨by decide,
    OpenURL_scheme_preservation (sampleSys "windows" (fun _ => none)) exampleHttp (by decide)⟩

/-- C3 (unsupported platform): on an operating system other than darwin, windows,
linux and freebsd, `OpenURL` returns the error made by `errors.New` with the message
"OS type <os> not implemented." for that system, and runs no command at all (no
probe, no launcher); on each of the four supported systems the error it returns, if
any, is never an error of that form. -/
theorem OpenURL_unsupported_platform (sys : Sys) (u : URL) :
    (sys.GOOS ∉ supported →
      (result (OpenURL sys u)).1
          = some (Error.errorString ("OS type " ++ sys.GOOS ++ " not implemented.")) ∧
        trace (OpenURL sys u) = []) ∧
    (sys.GOOS ∈ supported →
      ∀ os : String, (result (OpenURL sys u)).1
          ≠ some (Error.errorString ("OS type " ++ os ++ " not implemented."))) := by
  have hr := OpenURL_run sys u []
  constructor
  · intro hos
    simp only [supported, List.mem_cons, List.mem_singleton, List.not_mem_nil, or_false,
      not_or] at hos
    obtain ⟨h1, h2, h3, h4⟩ := hos
    have h34 : ¬ (sys.GOOS = "linux" ∨ sys.GOOS = "freebsd") := by simp [h3, h4]
    rw [if_neg h1, if_neg h2, if_neg h34] at hr
    simp [result, trace, hr]
  · intro hos os
    simp only [supported, List.mem_cons, List.mem_singleton, List.not_mem_nil, or_false] at hos
    by_cases h1 : sys.GOOS = "darwin"
    · rw [if_pos h1] at hr
      simp only [result, hr]
      cases sys.run (launch sys "open" (normalized u)) <;> simp
    by_cases h2 : sys.GOOS = "windows"
    · rw [if_neg h1, if_pos h2] at hr
      simp only [result, hr]
      cases sys.run (launch sys "start" (normalized u)) <;> simp
    have h3 : sys.GOOS = "linux" ∨ sys.GOOS = "freebsd" := by
      rcases hos with h | h | h | h
      · exact absurd h h1
      · exact absurd h h2
      · exact Or.inl h
      · exact Or.inr h
    rw [(OpenURL_nix sys u h3).1]
    rcases hf : strategies.find? (found sys) with _ | p
    · rw [(handleNix_none sys (normalized u) hf).1]
      intro heq
      exact notImplemented_ne os (by simpa using heq)
    · rw [(handleNix_some sys (normalized u) p hf).1]
      cases sys.run (launch sys p (normalized u)) <;> simp

/-- C3 on "plan9" (the error names plan9 and nothing is run) and on "linux" with no
candidate installed (the error is another one). -/
theorem OpenURL_unsupported_platform_witness :
    ((result (OpenURL (sampleSys "plan9" (fun _ => none)) examplePath)).1
        = some (Error.errorString "OS type plan9 not implemented.") ∧
      trace (OpenURL (sampleSys "plan9" (fun _ => none)) examplePath) = []) ∧
    (result (OpenURL (sampleSys "linux" (fun _ => some "exit status 1")) examplePath)).1
        ≠ some (Error.errorString "OS type linux not implemented.") :=
  ⟨(OpenURL_unsupported_platform (sampleSys "plan9" (fun _ => none)) examplePath).1 (by decide),
    (OpenURL_unsupported_platform (sampleSys "linux" (fun _ => some "exit status 1"))
      examplePath).2 (by decide) "linux"⟩

/-- C7 (darwin and windows): on darwin `OpenURL` runs exactly one command, `open`,
and on windows exactly one command, `start`, each with the string form of the URL
value after scheme defaulting as its only argument and with no probe before it; the
error `OpenURL` returns is the one of that run (nil when the run returns nil, the
error of the run otherwise). -/
theorem OpenURL_darwin_windows (sys : Sys) (u : URL) :
    (sys.GOOS = "darwin" →
      trace (OpenURL sys u) = [⟨"open", [sys.urlString (normalized u)]⟩] ∧
        (result (OpenURL sys u)).1
          = (sys.run ⟨"open", [sys.urlString (normalized u)]⟩).map Error.exec) ∧
    (sys.GOOS = "windows" →
      trace (OpenURL sys u) = [⟨"start", [sys.urlString (normalized u)]⟩] ∧
        (result (OpenURL sys u)).1
          = (sys.run ⟨"start", [sys.urlString (normalized u)]⟩).map Error.exec) := by
  have hr := OpenURL_run sys u []
  constructor
  · intro h1
    rw [if_pos h1] at hr
    simp [result, trace, hr, launch]
  · intro h2
    have h1 : sys.GOOS ≠ "darwin" := by simp [h2]
    rw [if_neg h1, if_pos h2] at hr
    simp [result, trace, hr, launch]

/-- C7 on darwin with an `open` that succeeds, and on windows with a `start` that
fails: one command each, on the https form of "example.com/path". -/
theorem OpenURL_darwin_windows_witness :
    (trace (OpenURL (sampleSys "darwin" (fun _ => none)) examplePath)
        = [⟨"open", ["https://example.com/path"]⟩] ∧
      (result (OpenURL (sampleSys "darwin" (fun _ => none)) examplePath)).1 = none) ∧
    (trace (OpenURL (sampleSys "windows" (fun _ => some "executable file not found")) examplePath)
        = [⟨"start", ["https://example.com/path"]⟩] ∧
      (result (OpenURL (sampleSys "windows" (fun _ => some "executable file not found"))
        examplePath)).1 = some (Error.exec "executable file not found")) :=
  ⟨(OpenURL_darwin_windows (sampleSys "darwin" (fun _ => none)) examplePath).1 rfl,
    (OpenURL_darwin_windows (sampleSys "windows" (fun _ => some "executable file not found"))
      examplePath).2 rfl⟩

/-- C10 (normalisation on every exit path): whatever the operating system and the
outcomes of the commands, and whether `OpenURL` returns nil or an error, the URL
value the caller holds afterwards has a non-empty scheme: "https" when the scheme
was empty, the previous scheme otherwise.  So a call on a value without a scheme
changes the value even when it fails, and a second call, in any environment, on the
value left by the first changes nothing. -/
theorem OpenURL_normalises_on_every_exit (sys sys2 : Sys) (u : URL) :
    (result (OpenURL sys u)).2.Scheme ≠ "" ∧
      (u.Scheme = "" → (result (OpenURL sys u)).2.Scheme = "https") ∧
      (u.Scheme ≠ "" → (result (OpenURL sys u)).2.Scheme = u.Scheme) ∧
      (u.Scheme = "" → (result (OpenURL sys u)).2 ≠ u) ∧
      (result (OpenURL sys2 (result (OpenURL sys u)).2)).2 = (result (OpenURL sys u)).2 := by
  rw [OpenURL_url, OpenURL_url]
  by_cases h : u.Scheme = ""
  · have hn : normalized u = { u with Scheme := "https" } := by simp [normalized, URL.IsAbs, h]
    rw [hn]
    refine ⟨by simp, fun _ => rfl, fun h2 => absurd h h2, fun _ heq => ?_, ?_⟩
    · have hs := congrArg URL.Scheme heq
      rw [h] at hs
      simp at hs
    · simp [normalized, URL.IsAbs]
  · have hn : normalized u = u := by simp [normalized, URL.IsAbs, h]
    rw [hn]
    exact ⟨h, fun h2 => absurd h2 h, fun _ => rfl, fun h2 => absurd h2 h, hn⟩

/-- C10 on an unsupported system: the call fails, and the scheme-less value parsed
from "example.com/path" has nevertheless become an https value. -/
theorem OpenURL_normalises_on_every_exit_witness :
    (result (OpenURL (sampleSys "plan9" (fun _ => none)) examplePath)).1 ≠ none ∧
      (result (OpenURL (sampleSys "plan9" (fun _ => none)) examplePath)).2.Scheme = "https" ∧
      (result (OpenURL (sampleSys "plan9" (fun _ => none)) examplePath)).2 ≠ examplePath :=
  ⟨by decide,
    (OpenURL_normalises_on_every_exit (sampleSys "plan9" (fun _ => none))
      (sampleSys "plan9" (fun _ => none)) examplePath).2.1 rfl,
    (OpenURL_normalises_on_every_exit (sampleSys "plan9" (fun _ => none))
      (sampleSys "plan9" (fun _ => none)) examplePath).2.2.2.1 rfl⟩

/-- C6 (parse failure): when `url.Parse` rejects the input, `Open` returns the
parser's error and runs no command (it does not reach `OpenURL`: the outcome does
not depend on the operating system); when `url.Parse` accepts the input, `Open`
returns what `OpenURL` returns on the parsed value and runs the same commands. -/
theorem Open_parse (sys : Sys) (rawURLStr : String) :
    (∀ e : String, sys.parse rawURLStr = .error e →
      result (Open sys rawURLStr) = some (Error.parse e) ∧ trace (Open sys rawURLStr) = []) ∧
    (∀ v : URL, sys.parse rawURLStr = .ok v →
      result (Open sys rawURLStr) = (result (OpenURL sys v)).1 ∧
        trace (Open sys rawURLStr) = trace (OpenURL sys v)) := by
  constructor
  · intro e he
    simp [Open, he, result, trace, StateT.run, pure, StateT.pure]
  · intro v hv
    simp [Open, hv, result, trace, StateT.run, pure, StateT.pure, bind, StateT.bind]
    constructor <;> rfl

/-- C6 on "http://[::1", which the sample parser rejects, and on "example.com/path",
which it accepts. -/
theorem Open_parse_witness :
    (result (Open (sampleSys "linux" (fun _ => none)) "http://[::1")
        = some (Error.parse "missing bracket in host") ∧
      trace (Open (sampleSys "linux" (fun _ => none)) "http://[::1") = []) ∧
    (result (Open (sampleSys "linux" (fun _ => none)) "example.com/path")
        = (result (OpenURL (sampleSys "linux" (fun _ => none)) examplePath)).1 ∧
      trace (Open (sampleSys "linux" (fun _ => none)) "example.com/path")
        = trace (OpenURL (sampleSys "linux" (fun _ => none)) examplePath)) :=
  ⟨(Open_parse (sampleSys "linux" (fun _ => none)) "http://[::1").1
      "missing bracket in host" rfl,
    (Open_parse (sampleSys "linux" (fun _ => none)) "example.com/path").2 examplePath rfl⟩

/-- C4 (strategy selection): when the probe of at least one candidate succeeds,
the list xdg-open, sensible-browser, x-www-browser splits at the first candidate
`p` whose probe succeeds (every candidate before it fails its probe); `handleNix`
probes the candidates up to `p`, then runs `p` with the string form of the URL as
its only argument, and returns the error of that run; no candidate after `p` is
probed or run. -/
theorem handleNix_selects_first (sys : Sys) (u : URL)
    (h : ∃ q ∈ strategies, found sys q = true) :
    ∃ (pre : List String) (p : String) (post : List String),
      strategies = pre ++ p :: post ∧
      (∀ q ∈ pre, found sys q = false) ∧ found sys p = true ∧
      trace (handleNix sys u) = pre.map probe ++ [probe p, ⟨p, [sys.urlString u]⟩] ∧
      result (handleNix sys u) = (sys.run ⟨p, [sys.urlString u]⟩).map Error.exec ∧
      ∀ q ∈ post, ∀ c ∈ trace (handleNix sys u), c ≠ probe q ∧ c.name ≠ q := by
  rcases hf : strategies.find? (found sys) with _ | p
  · obtain ⟨q, hq, hfound⟩ := h
    have hnone := (find_none_iff (found sys) strategies).1 hf q hq
    rw [hnone] at hfound
    exact absurd hfound (by simp)
  · obtain ⟨hp, hpre, post, hsplit⟩ := find_split (found sys) p strategies hf
    obtain ⟨hres, htr⟩ := handleNix_some sys u p hf
    refine ⟨strategies.takeWhile (fun q => !found sys q), p, post, hsplit, hpre, hp, htr, hres, ?_⟩
    rw [htr]
    exact later_untouched sys u _ post p hsplit

/-- C4 with xdg-open and x-www-browser installed and sensible-browser missing:
xdg-open is probed and run, x-www-browser is neither probed nor run. -/
theorem handleNix_selects_first_witness :
    (∃ q ∈ strategies, found (sampleSys "linux" runNoSensible) q = true) ∧
    (∃ (pre : List String) (p : String) (post : List String),
      strategies = pre ++ p :: post ∧
      (∀ q ∈ pre, found (sampleSys "linux" runNoSensible) q = false) ∧
      found (sampleSys "linux" runNoSensible) p = true ∧
      trace (handleNix (sampleSys "linux" runNoSensible) exampleHttp)
        = pre.map probe ++ [probe p, ⟨p, ["http://example.com"]⟩] ∧
      result (handleNix (sampleSys "linux" runNoSensible) exampleHttp)
        = (runNoSensible ⟨p, ["http://example.com"]⟩).map Error.exec ∧
      ∀ q ∈ post, ∀ c ∈ trace (handleNix (sampleSys "linux" runNoSensible) exampleHttp),
        c ≠ probe q ∧ c.name ≠ q) ∧
    trace (handleNix (sampleSys "linux" runNoSensible) exampleHttp)
      = [⟨"which", ["xdg-open"]⟩, ⟨"xdg-open", ["http://example.com"]⟩] :=
  ⟨⟨"xdg-open", by decide, by decide⟩,
    handleNix_selects_first (sampleSys "linux" runNoSensible) exampleHttp
      ⟨"xdg-open", by decide, by decide⟩,
    by decide⟩

/-- C5 (no strategy available): on linux and freebsd, `OpenURL` returns the error
made by `errors.New("no strategy available.")` exactly when the probe fails for
each of xdg-open, sensible-browser and x-www-browser; in that case the commands it
runs are the three probes and nothing else. -/
theorem OpenURL_no_strategy (sys : Sys) (u : URL)
    (hos : sys.GOOS = "linux" ∨ sys.GOOS = "freebsd") :
    ((result (OpenURL sys u)).1 = some (Error.errorString "no strategy available.") ↔
      ∀ q ∈ strategies, found sys q = false) ∧
    ((∀ q ∈ strategies, found sys q = false) →
      trace (OpenURL sys u)
        = [⟨"which", ["xdg-open"]⟩, ⟨"which", ["sensible-browser"]⟩,
            ⟨"which", ["x-www-browser"]⟩]) := by
  obtain ⟨hres, htr⟩ := OpenURL_nix sys u hos
  rw [hres, htr]
  rcases hf : strategies.find? (found sys) with _ | p
  · have hall := (find_none_iff (found sys) strategies).1 hf
    obtain ⟨h1, h2⟩ := handleNix_none sys (normalized u) hf
    rw [h1, h2]
    exact ⟨⟨fun _ => hall, fun _ => rfl⟩, fun _ => rfl⟩
  · obtain ⟨hp, _, post, hsplit⟩ := find_split (found sys) p strategies hf
    have hmem : p ∈ strategies := by
      rw [hsplit]
      simp
    have hnot : ¬ ∀ q ∈ strategies, found sys q = false := by
      intro hall
      rw [hall p hmem] at hp
      exact absurd hp (by simp)
    obtain ⟨h1, _⟩ := handleNix_some sys (normalized u) p hf
    rw [h1]
    refine ⟨⟨fun heq => ?_, fun hall => absurd hall hnot⟩, fun hall => absurd hall hnot⟩
    cases hrun : sys.run (launch sys p (normalized u)) <;> simp [hrun] at heq

/-- C5 on freebsd with none of the candidates installed: three probes, no launch,
and the error "no strategy available.". -/
theorem OpenURL_no_strategy_witness :
    ((result (OpenURL (sampleSys "freebsd" (fun _ => some "exit status 1")) examplePath)).1
        = some (Error.errorString "no strategy available.") ↔
      ∀ q ∈ strategies, found (sampleSys "freebsd" (fun _ => some "exit status 1")) q = false) ∧
    trace (OpenURL (sampleSys "freebsd" (fun _ => some "exit status 1")) examplePath)
      = [⟨"which", ["xdg-open"]⟩, ⟨"which", ["sensible-browser"]⟩,
          ⟨"which", ["x-www-browser"]⟩] :=
  ⟨(OpenURL_no_strategy (sampleSys "freebsd" (fun _ => some "exit status 1")) examplePath
      (Or.inr rfl)).1,
    (OpenURL_no_strategy (sampleSys "freebsd" (fun _ => some "exit status 1")) examplePath
      (Or.inr rfl)).2 (by decide)⟩

/-- C8 (no fallback after selection): on linux and freebsd, let `p` be the first
candidate whose probe succeeds (the candidates `pre` before it fail their probe,
the candidates `post` come after it).  If running `p` on the URL fails with an
error, `OpenURL` returns that error; the commands it runs are the probes of `pre`,
the probe of `p` and the launch of `p`, so only failed probes moved the search on,
and no candidate of `post` is probed or run, whatever the oracle says about it. -/
theorem OpenURL_no_fallback (sys : Sys) (u : URL) (pre post : List String) (p e : String)
    (hos : sys.GOOS = "linux" ∨ sys.GOOS = "freebsd")
    (hs : strategies = pre ++ p :: post)
    (hpre : ∀ q ∈ pre, found sys q = false) (hp : found sys p = true)
    (hfail : sys.run ⟨p, [sys.urlString (normalized u)]⟩ = some e) :
    (result (OpenURL sys u)).1 = some (Error.exec e) ∧
      trace (OpenURL sys u)
        = pre.map probe ++ [probe p, ⟨p, [sys.urlString (normalized u)]⟩] ∧
      ∀ q ∈ post, ∀ c ∈ trace (OpenURL sys u), c ≠ probe q ∧ c.name ≠ q := by
  obtain ⟨hres, htr⟩ := OpenURL_nix sys u hos
  obtain ⟨hfind, htake⟩ := find_first (found sys) p post pre hpre hp
  rw [← hs] at hfind htake
  obtain ⟨h1, h2⟩ := handleNix_some sys (normalized u) p hfind
  rw [htake] at h2
  rw [hres, htr, h1, h2]
  refine ⟨?_, rfl, later_untouched sys (normalized u) pre post p hs⟩
  simp only [launch, hfail, Option.map_some']

/-- C8 with the three candidates installed and an xdg-open that exits with status
3: the error of xdg-open is returned, sensible-browser (installed, and it would
have succeeded) is neither probed nor run. -/
theorem OpenURL_no_fallback_witness :
    (found (sampleSys "linux" runXdgFails) "sensible-browser" = true ∧
      runXdgFails ⟨"sensible-browser", ["http://example.com"]⟩ = none) ∧
    ((result (OpenURL (sampleSys "linux" runXdgFails) exampleHttp)).1
        = some (Error.exec "exit status 3") ∧
      trace (OpenURL (sampleSys "linux" runXdgFails) exampleHttp)
        = [⟨"which", ["xdg-open"]⟩, ⟨"xdg-open", ["http://example.com"]⟩] ∧
      ∀ q ∈ ["sensible-browser", "x-www-browser"],
        ∀ c ∈ trace (OpenURL (sampleSys "linux" runXdgFails) exampleHttp),
          c ≠ probe q ∧ c.name ≠ q) :=
  ⟨⟨by decide, by decide⟩,
    OpenURL_no_fallback (sampleSys "linux" runXdgFails) exampleHttp []
      ["sensible-browser", "x-www-browser"] "xdg-open" "exit status 3" (Or.inl rfl) rfl
      (fun _ hq => absurd hq (List.not_mem_nil _)) (by decide) (by decide)⟩

/-- C9 (probe sequence): the commands `handleNix` runs are a list `probes` followed
by a list `launches`.  `probes` is a prefix of which xdg-open, which
sensible-browser, which x-www-browser, without repetition and of length at most
three; `launches` holds at most one command, which is not a probe.  Every probe but
the last one failed; either the last probe succeeded and its candidate is the one
launched, or the three probes all failed and nothing is launched. -/
theorem handleNix_probe_sequence (sys : Sys) (u : URL) :
    ∃ probes launches : List Cmd,
      trace (handleNix sys u) = probes ++ launches ∧
      probes <+: [⟨"which", ["xdg-open"]⟩, ⟨"which", ["sensible-browser"]⟩,
        ⟨"which", ["x-www-browser"]⟩] ∧
      probes.Nodup ∧ probes.length ≤ 3 ∧
      launches.length ≤ 1 ∧ (∀ c ∈ launches, c.name ≠ "which") ∧
      (∀ q : String, probe q ∈ probes.dropLast → found sys q = false) ∧
      ((∃ p : String, probes.getLast? = some (probe p) ∧ found sys p = true ∧
          launches = [⟨p, [sys.urlString u]⟩]) ∨
        (probes = [⟨"which", ["xdg-open"]⟩, ⟨"which", ["sensible-browser"]⟩,
            ⟨"which", ["x-www-browser"]⟩] ∧
          (∀ q ∈ strategies, found sys q = false) ∧ launches = [])) := by
  rcases hf : strategies.find? (found sys) with _ | p
  · have hall := (find_none_iff (found sys) strategies).1 hf
    obtain ⟨_, htr⟩ := handleNix_none sys u hf
    refine ⟨strategies.map probe, [], by simpa using htr, ?_, by decide, by decide, by simp,
      by simp, ?_, Or.inr ⟨rfl, hall, rfl⟩⟩
    · exact List.prefix_refl _
    · intro q hq
      have hq2 : q = "xdg-open" ∨ q = "sensible-browser" := by
        simpa [strategies, probe] using hq
      rcases hq2 with rfl | rfl
      · exact hall _ (by decide)
      · exact hall _ (by decide)
  · obtain ⟨hp, hpre, post, hsplit⟩ := find_split (found sys) p strategies hf
    obtain ⟨_, htr⟩ := handleNix_some sys u p hf
    generalize strategies.takeWhile (fun q => !found sys q) = pre at hpre hsplit htr
    refine ⟨pre.map probe ++ [probe p], [launch sys p u], by simpa using htr, ?_⟩
    rcases strategies_split pre post p hsplit with ⟨rfl, rfl, rfl⟩ | ⟨rfl, rfl, rfl⟩ |
      ⟨rfl, rfl, rfl⟩
    · refine ⟨?_, by decide, by decide, by simp, by simp [launch], by simp,
        Or.inl ⟨_, rfl, hp, rfl⟩⟩
      exact ⟨[⟨"which", ["sensible-browser"]⟩, ⟨"which", ["x-www-browser"]⟩], rfl⟩
    · refine ⟨?_, by decide, by decide, by simp, by simp [launch], ?_,
        Or.inl ⟨_, rfl, hp, rfl⟩⟩
      · exact ⟨[⟨"which", ["x-www-browser"]⟩], rfl⟩
      · intro q hq
        have hq2 : q = "xdg-open" := by simpa [probe] using hq
        exact hpre q (by simp [hq2])
    · refine ⟨?_, by decide, by decide, by simp, by simp [launch], ?_,
        Or.inl ⟨_, rfl, hp, rfl⟩⟩
      · exact ⟨[], rfl⟩
      · intro q hq
        have hq2 : q = "xdg-open" ∨ q = "sensible-browser" := by simpa [probe] using hq
        exact hpre q (by simpa using hq2)

/-- C9 with x-www-browser alone installed: three probes in the fixed order, then
the launch of x-www-browser. -/
theorem handleNix_probe_sequence_witness :
    (∃ probes launches : List Cmd,
      trace (handleNix (sampleSys "linux" runOnlyLast) exampleHttp) = probes ++ launches ∧
      probes <+: [⟨"which", ["xdg-open"]⟩, ⟨"which", ["sensible-browser"]⟩,
        ⟨"which", ["x-www-browser"]⟩] ∧
      probes.Nodup ∧ probes.length ≤ 3 ∧
      launches.length ≤ 1 ∧ (∀ c ∈ launches, c.name ≠ "which") ∧
      (∀ q : String, probe q ∈ probes.dropLast →
        found (sampleSys "linux" runOnlyLast) q = false) ∧
      ((∃ p : String, probes.getLast? = some (probe p) ∧
          found (sampleSys "linux" runOnlyLast) p = true ∧
          launches = [⟨p, ["http://example.com"]⟩]) ∨
        (probes = [⟨"which", ["xdg-open"]⟩, ⟨"which", ["sensible-browser"]⟩,
            ⟨"which", ["x-www-browser"]⟩] ∧
          (∀ q ∈ strategies, found (sampleSys "linux" runOnlyLast) q = false) ∧
          launches = []))) ∧
    trace (handleNix (sampleSys "linux" runOnlyLast) exampleHttp)
      = [⟨"which", ["xdg-open"]⟩, ⟨"which", ["sensible-browser"]⟩,
          ⟨"which", ["x-www-browser"]⟩, ⟨"x-www-browser", ["http://example.com"]⟩] :=
  ⟨handleNix_probe_sequence (sampleSys "linux" runOnlyLast) exampleHttp, by decide⟩

end Browser
